import Mathlib

/-!
Verification of the core components of the Practical-System-Design repository:
the Snowflake-style id generator (`1_unique_id_generator/snowflake_id_generator.py`),
the replicated key-value store (`2_key_value_store/{vector_clock,data_store,node}.py`)
and the news-feed engine (`5_news_feed/{database,cache,fanout,feed_service,api}.py`).

Python dictionaries are embedded as association lists (first-occurrence lookup,
in-place update of an existing key, append for a fresh key — exactly the
observable behaviour of `dict`).  Redis sorted sets are association lists from
member to score whose rank operations sort by (score, member).  Wall-clock
readings, random draws and freshly generated ids (uuid4) are explicit inputs.
-/

namespace PSD

/-! ## Association lists: the embedding of Python `dict` / Redis hashes -/

/-- Lookup of a key: the value at its first occurrence, like `dict.get`. -/
def alGet {κ β : Type} [DecidableEq κ] : List (κ × β) → κ → Option β
  | [], _ => none
  | (k1, v) :: rest, k => if k1 = k then some v else alGet rest k

/-- Assignment `d[k] = v`: replace the value at an existing key in place,
append the pair when the key is fresh — the behaviour of Python `dict`
assignment and of Redis `ZADD`/`HSET` on one field. -/
def alSet {κ β : Type} [DecidableEq κ] : List (κ × β) → κ → β → List (κ × β)
  | [], k, v => [(k, v)]
  | (k1, v1) :: rest, k, v =>
    if k1 = k then (k1, v) :: rest else (k1, v1) :: alSet rest k v

/-- Deletion `del d[k]` of every binding of the key. -/
def alRemove {κ β : Type} [DecidableEq κ] (l : List (κ × β)) (k : κ) : List (κ × β) :=
  l.filter (fun p => decide (p.1 ≠ k))

/-- Set insertion (Python `set.add` / Redis `SADD`): append when absent. -/
def setInsert {κ : Type} [DecidableEq κ] (l : List κ) (k : κ) : List κ :=
  if k ∈ l then l else l ++ [k]

/-! ## Vector clocks (`2_key_value_store/vector_clock.py`)

A clock is the dictionary `node_id → counter` held by `VectorClock.clock`. -/

abbrev Clock := List (String × Nat)

/-- The counter of a node id, `self.clock.get(node_id, 0)`. -/
def vcGet (c : Clock) (id : String) : Nat := (alGet c id).getD 0

/-- The key list of a clock dictionary. -/
def vcKeys (c : Clock) : List String := c.map Prod.fst

/-- The id set `set(list(self.clock.keys()) + list(other_clock.keys()))`
used by `VectorClock.compare`. -/
def allNodeIds (a b : Clock) : List String := (vcKeys a ++ vcKeys b).dedup

/-- `VectorClock.increment(node_id)`: bump an existing counter in place,
otherwise create the entry with counter 1. -/
def vcIncrement : Clock → String → Clock
  | [], id => [(id, 1)]
  | (k, v) :: rest, id =>
    if k = id then (k, v + 1) :: rest else (k, v) :: vcIncrement rest id

/-- The loop of `VectorClock.compare`: walk the node ids keeping the two
flags `self_smaller` and `other_smaller`, returning `0` as soon as both are
set, and classifying by the final flags otherwise. -/
def compareLoop (a b : Clock) : List String → Bool → Bool → Int
  | [], selfSmaller, otherSmaller =>
    if selfSmaller && !otherSmaller then -1
    else if otherSmaller && !selfSmaller then 1
    else 0
  | id :: rest, selfSmaller, otherSmaller =>
    let sc := vcGet a id
    let oc := vcGet b id
    let ss := selfSmaller || decide (sc < oc)
    let os := otherSmaller || decide (oc < sc)
    if ss && os then 0 else compareLoop a b rest ss os

/-- `VectorClock.compare(other_clock)`: returns `-1` (happens-before),
`1` (happens-after) or `0` (concurrent, or identical). -/
def vcCompare (a b : Clock) : Int := compareLoop a b (allNodeIds a b) false false

/-- The four comparison outcomes named by the specification. -/
inductive CompareOutcome
  | BEFORE
  | AFTER
  | EQUAL
  | CONCURRENT
deriving DecidableEq, Repr

/-- Spec-side definition (for the refinement comparison of claim C1, written
from the specification's words, not from the code): `lt` holds when every
coordinate of `A` is at most the one of `B` and some coordinate is strictly
smaller.  Coordinates outside the two key sets are 0 on both sides, so
quantifying over `allNodeIds` captures the specification's `∀id` / `∃id`. -/
def specLtB (a b : Clock) : Bool :=
  (allNodeIds a b).all (fun id => decide (vcGet a id ≤ vcGet b id)) &&
  (allNodeIds a b).any (fun id => decide (vcGet a id < vcGet b id))

/-- Spec-side four-valued comparison (for the refinement comparison of claim
C1): BEFORE when `lt`, AFTER when `gt`, CONCURRENT when each clock is
strictly greater somewhere, EQUAL otherwise. -/
def specCompare (a b : Clock) : CompareOutcome :=
  if specLtB a b then CompareOutcome.BEFORE
  else if specLtB b a then CompareOutcome.AFTER
  else if (allNodeIds a b).any (fun id => decide (vcGet a id < vcGet b id)) &&
          (allNodeIds a b).any (fun id => decide (vcGet b id < vcGet a id)) then
    CompareOutcome.CONCURRENT
  else CompareOutcome.EQUAL

/-! ## Versioned store (`2_key_value_store/data_store.py`)

The store is the dictionary `key → [VersionedValue]` held by `DataStore.data`;
the value type is a parameter (`Any` in Python), and `time.time()` readings
are explicit `now` inputs. -/

/-- A value together with its vector clock and wall-clock write time. -/
structure VersionedValue (α : Type) where
  value : α
  clock : Clock
  timestamp : Nat
deriving DecidableEq, Repr

/-- The per-node store contents `DataStore.data`. -/
abbrev StoreData (α : Type) := List (String × List (VersionedValue α))

/-- The loop of `DataStore._handle_conflicts`, with its accumulated
`conflicting_versions`, `is_descendant` and `has_conflicts`; comparison `1`
drops the old sibling, comparison `-1` returns at once with the existing
version as the sole survivor, anything else records a conflict.  The result
is the final sibling list assigned to `self.data[key]`. -/
def handleConflictsLoop {α : Type} (newv : VersionedValue α) :
    List (VersionedValue α) → List (VersionedValue α) → Bool → Bool →
    List (VersionedValue α)
  | [], conflicting, isDescendant, hasConflicts =>
    if isDescendant && hasConflicts then conflicting ++ [newv]
    else if isDescendant then [newv]
    else conflicting ++ [newv]
  | ex :: rest, conflicting, isDescendant, hasConflicts =>
    let c := vcCompare newv.clock ex.clock
    if c = 1 then handleConflictsLoop newv rest conflicting true hasConflicts
    else if c = -1 then [ex]
    else handleConflictsLoop newv rest (conflicting ++ [ex]) isDescendant true

/-- `DataStore.put(key, value, context)`: derive the new clock by
incrementing the caller's context (empty when absent) at this node, wrap the
value, store it directly for a fresh key or run conflict handling for an
existing one, and return the derived clock — `put` returns `clock.clock`
on every path. -/
def dataStorePut {α : Type} (nodeId : String) (store : StoreData α) (key : String)
    (value : α) (context : Option Clock) (now : Nat) : Clock × StoreData α :=
  let clock := vcIncrement (context.getD []) nodeId
  let vv : VersionedValue α := ⟨value, clock, now⟩
  match alGet store key with
  | none => (clock, store ++ [(key, [vv])])
  | some versions =>
    (clock, alSet store key (handleConflictsLoop vv versions [] false false))

/-! ## Node coordinator (`2_key_value_store/node.py`)

`Node.put` is embedded over a cluster mapping node id to local store
contents.  The responsible-node list is the output of
`self.ring.get_n_replicas(key, N)` (`_get_nodes_for_key`), passed in
explicitly, and the stream of `random.random() < 0.8` outcomes of the
simulated replication loop is the explicit `draws` input. -/

/-- The cluster: each node id with its local `DataStore` contents. -/
abbrev Cluster (α : Type) := List (String × StoreData α)

/-- The replication loop of `Node.put` over `responsible_nodes[1:]`: each
iteration consumes one simulated draw, increments the success count on a
`true` draw, and returns early once the write quorum is met; afterwards it
reports whether the count reached `W`.  No remote store is written. -/
def quorumLoop (W : Nat) : Nat → List String → List Bool → Bool
  | succ, [], _ => decide (W ≤ succ)
  | succ, _ :: rest, draws =>
    let succ2 := if draws.headD false then succ + 1 else succ
    if W ≤ succ2 then true else quorumLoop W succ2 rest draws.tail

/-- `Node.put(key, value, context)`: fail on an empty responsible list; if
this node is responsible, apply the write to the local store (count 1) and
run the simulated replication loop; otherwise the simulation cannot forward
and returns failure. -/
def nodePut {α : Type} (selfId : String) (cluster : Cluster α)
    (responsible : List String) (W : Nat) (draws : List Bool) (key : String)
    (value : α) (context : Option Clock) (now : Nat) : Bool × Cluster α :=
  if responsible = [] then (false, cluster)
  else if selfId ∈ responsible then
    let store := (alGet cluster selfId).getD []
    let cluster2 := alSet cluster selfId (dataStorePut selfId store key value context now).2
    (quorumLoop W 1 (responsible.drop 1) draws, cluster2)
  else (false, cluster)

/-! ## Snowflake id generator (`1_unique_id_generator/snowflake_id_generator.py`)

Wall-clock readings (`_get_current_timestamp`, already epoch-shifted
milliseconds) are explicit inputs: each `next_id` call receives the reading
`t` it observes and the list `future` of readings that the busy-wait
`_wait_next_millis` would poll.  A `none` result is a call that raised
`Clock moved backwards` (or whose busy-wait never observed a later
millisecond) and therefore emitted nothing. -/

/-- `SEQUENCE_BITS`-wide sequence mask, `-1 ^ (-1 << 12)`. -/
def MAX_SEQUENCE : Nat := 4095

/-- `MACHINE_ID_SHIFT = SEQUENCE_BITS`. -/
def MACHINE_ID_SHIFT : Nat := 12

/-- `DATACENTER_ID_SHIFT = SEQUENCE_BITS + MACHINE_ID_BITS`. -/
def DATACENTER_ID_SHIFT : Nat := 17

/-- `TIMESTAMP_SHIFT = SEQUENCE_BITS + MACHINE_ID_BITS + DATACENTER_ID_BITS`. -/
def TIMESTAMP_SHIFT : Nat := 22

/-- The mutable allocator fields `self.sequence` and `self.last_timestamp`
(the latter starts at `-1`, hence an integer). -/
structure GenState where
  sequence : Nat
  lastTimestamp : Int
deriving DecidableEq, Repr

/-- Constructor state: `sequence = 0`, `last_timestamp = -1`. -/
def genInit : GenState := ⟨0, -1⟩

/-- `_wait_next_millis(last_timestamp)`: poll readings until one exceeds
`last_timestamp`; `none` when the supplied readings never do. -/
def waitNextMillis (last : Int) : List Nat → Option Nat
  | [] => none
  | t :: ts => if (t : Int) ≤ last then waitNextMillis last ts else some t

/-- The id composition
`(timestamp << 22) | (datacenter_id << 17) | (machine_id << 12) | sequence`. -/
def composeId (dc mc ts seq : Nat) : Nat :=
  ts <<< TIMESTAMP_SHIFT ||| dc <<< DATACENTER_ID_SHIFT |||
    mc <<< MACHINE_ID_SHIFT ||| seq

/-- `SnowflakeIDGenerator.next_id()`: refuse on a clock that moved backwards;
within the same millisecond advance the sequence modulo 4096 (masking with
`MAX_SEQUENCE`) and busy-wait for a later millisecond on wrap; on a later
millisecond reset the sequence; then record the timestamp and compose the
id. -/
def nextId (dc mc : Nat) (s : GenState) (t : Nat) (future : List Nat) :
    Option (Nat × GenState) :=
  if (t : Int) < s.lastTimestamp then none
  else if (t : Int) = s.lastTimestamp then
    let seq := (s.sequence + 1) &&& MAX_SEQUENCE
    if seq = 0 then
      match waitNextMillis s.lastTimestamp future with
      | none => none
      | some t2 => some (composeId dc mc t2 seq, ⟨seq, (t2 : Int)⟩)
    else some (composeId dc mc t seq, ⟨seq, (t : Int)⟩)
  else some (composeId dc mc t 0, ⟨0, (t : Int)⟩)

/-- A sequence of `next_id` calls on one allocator: each call supplies its
clock reading and the readings its potential busy-wait would see.  The run
fails entirely if any call fails, and otherwise returns the emitted ids in
order. -/
def runGen (dc mc : Nat) : GenState → List (Nat × List Nat) →
    Option (List Nat × GenState)
  | s, [] => some ([], s)
  | s, (t, fut) :: rest =>
    match nextId dc mc s t fut with
    | none => none
    | some (id, s2) =>
      match runGen dc mc s2 rest with
      | none => none
      | some (ids, sf) => some (id :: ids, sf)

/-! ## Membership and gossip (`2_key_value_store/node.py`)

`Node.receive_gossip` is embedded over the node-local view: the membership
dictionary `node_id → (heartbeat, timestamp)`, the set of physical node ids
present in the consistent-hash ring, and `known_failed_nodes`.  `time.time()`
is the explicit `now` input; the `remote_failed_nodes` set and the
`remote_membership` dictionary arrive as lists in iteration order. -/

/-- A membership entry: heartbeat counter and last-update wall time. -/
abbrev MemberInfo := Nat × Int

/-- A node's local view used by the gossip protocol. -/
structure NodeState where
  selfId : String
  membership : List (String × MemberInfo)
  ring : List String
  knownFailed : List String
deriving DecidableEq, Repr

/-- The failed-nodes loop of `receive_gossip`: every reported failed id that
is currently in membership and is not this node is deleted from membership
and ring and recorded in `known_failed_nodes`. -/
def gossipRemoveFailed : NodeState → List String → NodeState
  | st, [] => st
  | st, fnode :: rest =>
    let st2 :=
      if (alGet st.membership fnode).isSome ∧ fnode ≠ st.selfId then
        { st with
          membership := alRemove st.membership fnode
          ring := st.ring.filter (fun n => decide (n ≠ fnode))
          knownFailed := setInsert st.knownFailed fnode }
      else st
    gossipRemoveFailed st2 rest

/-- The sender update of `receive_gossip`: an unknown sender is added to
membership (with its remote entry, defaulting to heartbeat 0 and the current
time) and to the ring; a known sender's heartbeat is refreshed when the
remote one is larger.  There is no `known_failed_nodes` check here. -/
def gossipUpdateSender (st : NodeState) (senderId : String)
    (remoteMembership : List (String × MemberInfo)) (now : Int) : NodeState :=
  match alGet st.membership senderId with
  | none =>
    { st with
      membership := alSet st.membership senderId
        ((alGet remoteMembership senderId).getD (0, now))
      ring := setInsert st.ring senderId }
  | some (localHb, _) =>
    let remoteHb := ((alGet remoteMembership senderId).getD (0, 0)).1
    if localHb < remoteHb then
      { st with membership := alSet st.membership senderId (remoteHb, now) }
    else st

/-- The merge loop of `receive_gossip` over the remote membership: skip this
node itself and every id in `known_failed_nodes`; refresh a known id on a
larger heartbeat; add an unknown id to membership and ring. -/
def gossipMergeMembership (now : Int) :
    NodeState → List (String × MemberInfo) → NodeState
  | st, [] => st
  | st, (nid, (remoteHb, _)) :: rest =>
    let st2 :=
      if nid = st.selfId then st
      else if nid ∈ st.knownFailed then st
      else
        match alGet st.membership nid with
        | some (localHb, _) =>
          if localHb < remoteHb then
            { st with membership := alSet st.membership nid (remoteHb, now) }
          else st
        | none =>
          { st with
            membership := alSet st.membership nid (remoteHb, now)
            ring := setInsert st.ring nid }
    gossipMergeMembership now st2 rest

/-- `Node.receive_gossip(sender_id, remote_membership, remote_failed_nodes)`:
ignore when stopped, else process the failed set, update the sender, and
merge the remote membership. -/
def receiveGossip (st : NodeState) (senderId : String)
    (remoteMembership : List (String × MemberInfo))
    (remoteFailed : List String) (now : Int) (isRunning : Bool) : NodeState :=
  if !isRunning then st
  else
    gossipMergeMembership now
      (gossipUpdateSender (gossipRemoveFailed st remoteFailed) senderId
        remoteMembership now)
      remoteMembership

/-! ## News-feed engine (`5_news_feed`)

User and post ids are opaque identifiers, embedded as naturals (the source
uses strings and uuid4 post ids; fresh ids are explicit inputs).  The state
gathers the Mongo collections touched by the claims (`users`, `posts`,
`relationships`, `news_feed`, `actions`) and the Redis keys
(`feed:{user}` sorted sets, `celebrity:{user}` flags, `post:{id}` content,
`relationship:{u}:{f}` hashes, `action:{post}:{type}` sets and
`counter:{post}:{type}` counters).  Configuration values
(`celebrity_threshold`, `max_feed_size` from `config.py`) are parameters of
the operations that read them. -/

/-- `RelationshipType` of `models.py`. -/
inductive RelTy
  | FRIEND
  | FOLLOW
  | BLOCK
  | MUTE
deriving DecidableEq, Repr

/-- `ActionType` of `models.py`. -/
inductive ActionTy
  | LIKE
  | COMMENT
  | SHARE
deriving DecidableEq, Repr

/-- A row of the `relationships` collection: directed edge with a type. -/
structure RelRow where
  user : Nat
  friend : Nat
  ty : RelTy
deriving DecidableEq, Repr

/-- A row of the `actions` collection. -/
structure ActionRow where
  user : Nat
  post : Nat
  ty : ActionTy
deriving DecidableEq, Repr

/-- The news-feed system state (database collections and cache keys). -/
structure FS where
  users : List Nat
  /-- `posts` rows: (post id, author id, created-at score). -/
  posts : List (Nat × Nat × Int)
  relationships : List RelRow
  /-- `news_feed` rows: (owner user id, post id); never trimmed. -/
  dbFeed : List (Nat × Nat)
  actions : List ActionRow
  /-- Redis `feed:{user}` sorted sets: member post id with score. -/
  cacheFeeds : List (Nat × List (Nat × Int))
  /-- Redis `celebrity:{user}` flags. -/
  celebrity : List Nat
  /-- Redis `post:{id}` content-cache keys present. -/
  cachePosts : List Nat
  /-- Redis `relationship:{u}:{f}` hashes of the social-graph cache. -/
  cacheSocial : List ((Nat × Nat) × RelTy)
  /-- Redis `action:{post}:{type}` membership sets. -/
  actionSets : List ((Nat × ActionTy) × List Nat)
  /-- Redis `counter:{post}:{type}` counters. -/
  counters : List ((Nat × ActionTy) × Int)
  /-- The fanout queue of (author, post, created-at) tuples. -/
  queue : List (Nat × Nat × Int)
deriving DecidableEq, Repr

/-- The empty system state. -/
def emptyFS : FS := ⟨[], [], [], [], [], [], [], [], [], [], [], []⟩

/-! ### Database service (`database.py`) -/

/-- `DatabaseService.get_relationship(user_id, friend_id)`: the first
matching edge row. -/
def dbGetRelationship (fs : FS) (u f : Nat) : Option RelRow :=
  fs.relationships.find? (fun r => decide (r.user = u ∧ r.friend = f))

/-- `DatabaseService.get_relationship_type(user_id, friend_id)`. -/
def dbGetRelationshipType (fs : FS) (u f : Nat) : Option RelTy :=
  (dbGetRelationship fs u f).map RelRow.ty

/-- `DatabaseService.get_followers(user_id)`: the source users of FOLLOW
edges pointing at this user. -/
def dbGetFollowers (fs : FS) (u : Nat) : List Nat :=
  (fs.relationships.filter
    (fun r => decide (r.friend = u ∧ r.ty = RelTy.FOLLOW))).map RelRow.user

/-- `DatabaseService.get_follower_count(user_id)`: `count_documents` over the
same query. -/
def dbGetFollowerCount (fs : FS) (u : Nat) : Nat := (dbGetFollowers fs u).length

/-- `update_one` on the first edge row matching the pair, setting its type. -/
def updateRelRows : List RelRow → Nat → Nat → RelTy → List RelRow
  | [], _, _, _ => []
  | r :: rest, u, f, t =>
    if r.user = u ∧ r.friend = f then { r with ty := t } :: rest
    else r :: updateRelRows rest u f t

/-- `DatabaseService.create_relationship(user_id, friend_id, type)`: fail
when either user is missing; update the type of an existing edge; otherwise
insert the new edge.  There is no self-edge check. -/
def dbCreateRelationship (fs : FS) (u f : Nat) (t : RelTy) : Option RelRow × FS :=
  if u ∈ fs.users ∧ f ∈ fs.users then
    match dbGetRelationship fs u f with
    | some ex =>
      if ex.ty ≠ t then
        (some { ex with ty := t },
         { fs with relationships := updateRelRows fs.relationships u f t })
      else (some ex, fs)
    | none =>
      (some ⟨u, f, t⟩, { fs with relationships := fs.relationships ++ [⟨u, f, t⟩] })
  else (none, fs)

/-- `DatabaseService.create_action(user_id, post_id, type)`: return the
existing row unchanged when the triple already exists, else insert it. -/
def dbCreateAction (fs : FS) (u p : Nat) (t : ActionTy) : Option ActionRow × FS :=
  match fs.actions.find? (fun a => decide (a.user = u ∧ a.post = p ∧ a.ty = t)) with
  | some ex => (some ex, fs)
  | none => (some ⟨u, p, t⟩, { fs with actions := fs.actions ++ [⟨u, p, t⟩] })

/-- `DatabaseService.add_to_feed(user_id, post_id)`: insert the feed row
unless it is already present.  No size cap is applied. -/
def dbAddToFeed (fs : FS) (u p : Nat) : FS :=
  if (fs.dbFeed.find? (fun r => decide (r.1 = u ∧ r.2 = p))).isSome then fs
  else { fs with dbFeed := fs.dbFeed ++ [(u, p)] }

/-- `DatabaseService.create_post(user_id, ...)`: insert the post row; the
fresh uuid4 post id and the creation score are explicit inputs. -/
def dbCreatePost (fs : FS) (author pid : Nat) (createdAt : Int) : FS :=
  { fs with posts := fs.posts ++ [(pid, author, createdAt)] }

/-- Descending created-at order (ties by post id) used when reading a user's
posts newest-first. -/
def postDesc (x y : Nat × Nat × Int) : Prop :=
  y.2.2 < x.2.2 ∨ (x.2.2 = y.2.2 ∧ x.1 ≤ y.1)

instance : DecidableRel postDesc := fun x y => by
  unfold postDesc; infer_instance

/-- `DatabaseService.get_user_posts(user_id, limit)`: the user's posts,
newest first, up to the limit. -/
def dbGetUserPosts (fs : FS) (u : Nat) (limit : Nat) : List (Nat × Nat × Int) :=
  ((fs.posts.filter (fun p => decide (p.2.1 = u))).insertionSort postDesc).take limit

/-! ### Cache service (`cache.py`) -/

/-- Ascending Redis sorted-set rank order: by score, ties by member. -/
def zle (x y : Nat × Int) : Prop := x.2 < y.2 ∨ (x.2 = y.2 ∧ x.1 ≤ y.1)

instance : DecidableRel zle := fun x y => by
  unfold zle; infer_instance

instance : IsTotal (Nat × Int) zle := by
  constructor; intro a b; unfold zle; omega

instance : IsTrans (Nat × Int) zle := by
  constructor; intro a b c; unfold zle; omega

/-- `ZREMRANGEBYRANK key 0 (-max_feed_size-1)`: drop the lowest-ranked
entries so that at most `max_feed_size` remain (nothing when the set is
already within the cap). -/
def zTrim (maxFeedSize : Nat) (l : List (Nat × Int)) : List (Nat × Int) :=
  (l.insertionSort zle).drop (l.length - maxFeedSize)

/-- `NewsFeedCache.add_post_to_feed(user_id, post_id, timestamp)`: `ZADD`
the post id with its score into `feed:{user}` and trim the set to
`max_feed_size`. -/
def cacheAddPostToFeed (maxFeedSize : Nat) (fs : FS) (u p : Nat) (score : Int) : FS :=
  let feed := (alGet fs.cacheFeeds u).getD []
  let feed2 := zTrim maxFeedSize (alSet feed p score)
  { fs with cacheFeeds := alSet fs.cacheFeeds u feed2 }

/-- `ActionCache.add_action(user_id, post_id, action_type)`: `SADD` the user
into `action:{post}:{type}` (a no-op on a repeat), then unconditionally
`INCR` `counter:{post}:{type}`. -/
def cacheAddAction (fs : FS) (u p : Nat) (t : ActionTy) : FS :=
  let s := (alGet fs.actionSets (p, t)).getD []
  let s2 := if u ∈ s then s else s ++ [u]
  let c := (alGet fs.counters (p, t)).getD 0
  { fs with
    actionSets := alSet fs.actionSets (p, t) s2
    counters := alSet fs.counters (p, t) (c + 1) }

/-- `ContentCache.set_post(post)`: record the post id as cached. -/
def cacheSetPost (fs : FS) (p : Nat) : FS :=
  { fs with cachePosts := setInsert fs.cachePosts p }

/-! ### Fanout service (`fanout.py`) and feed service (`feed_service.py`) -/

/-- The per-follower body shared by `FanoutService._fanout_batch` and the
eager follower loop of `FeedService.publish_post`: skip a follower whose
relationship to the author is BLOCK, otherwise add the post to the
follower's persisted feed (`db.add_to_feed`) and to the follower's cached
feed (`cache.news_feed.add_post_to_feed`). -/
def fanoutFollowerStep (maxFeedSize : Nat) (author post : Nat) (score : Int)
    (fs : FS) (follower : Nat) : FS :=
  match dbGetRelationshipType fs follower author with
  | some RelTy.BLOCK => fs
  | _ => cacheAddPostToFeed maxFeedSize (dbAddToFeed fs follower post) follower post score

/-- The follower loop: sequential effect of all batches over the follower
list (batching into groups of `batch_size` does not change the resulting
state). -/
def fanoutFollowers (maxFeedSize : Nat) (author post : Nat) (score : Int) :
    FS → List Nat → FS
  | fs, [] => fs
  | fs, f :: rest =>
    fanoutFollowers maxFeedSize author post score
      (fanoutFollowerStep maxFeedSize author post score fs f) rest

/-- `FanoutService._execute_fanout(user_id, post_id, timestamp)`: read the
follower count and compare it with `celebrity_threshold`; add the post to
the author's own cached feed; for a celebrity cache the post content and set
the `celebrity:{user}` flag (no follower writes); otherwise run the eager
follower loop.  The statistics counters are not modelled. -/
def executeFanout (threshold maxFeedSize : Nat) (fs : FS) (author post : Nat)
    (score : Int) : FS :=
  let isCelebrity := decide (threshold < dbGetFollowerCount fs author)
  let fs1 := cacheAddPostToFeed maxFeedSize fs author post score
  if isCelebrity then
    let fs2 := cacheSetPost fs1 post
    { fs2 with celebrity := setInsert fs2.celebrity author }
  else fanoutFollowers maxFeedSize author post score fs1 (dbGetFollowers fs1 author)

/-- `FanoutService.fanout_post(user_id, post_id, timestamp)`: enqueue the
tuple, then (for testing purposes, in the source) immediately execute the
fanout synchronously on the caller's path. -/
def fanoutPost (threshold maxFeedSize : Nat) (fs : FS) (author post : Nat)
    (score : Int) : FS :=
  executeFanout threshold maxFeedSize
    { fs with queue := fs.queue ++ [(author, post, score)] } author post score

/-- `FeedService.publish_post(user_id, content, ...)`: create the post row
(fresh id `pid`, creation score `score`), cache the content, add the post to
the author's own persisted and cached feed, eagerly add it to every
non-blocked follower's persisted and cached feed, then call
`fanout.fanout_post`. -/
def publishPost (threshold maxFeedSize : Nat) (fs : FS) (author pid : Nat)
    (score : Int) : FS :=
  let fs1 := dbCreatePost fs author pid score
  let fs2 := cacheSetPost fs1 pid
  let fs3 := dbAddToFeed fs2 author pid
  let fs4 := cacheAddPostToFeed maxFeedSize fs3 author pid score
  let fs5 := fanoutFollowers maxFeedSize author pid score fs4 (dbGetFollowers fs4 author)
  fanoutPost threshold maxFeedSize fs5 author pid score

/-- The combined effect of one `addAction` (the `FeedService.like_post`
path): `db.create_action` (idempotent row insert), then — whenever a row is
returned, including the pre-existing one — `cache.action.add_action`. -/
def addAction (fs : FS) (u p : Nat) (t : ActionTy) : FS :=
  match dbCreateAction fs u p t with
  | (none, fs2) => fs2
  | (some _, fs2) => cacheAddAction fs2 u p t

/-- One append to a user's feed index as performed by the publish and fanout
paths: the persisted insert followed by the cached insert-and-trim. -/
def feedAppend (maxFeedSize : Nat) (fs : FS) (u p : Nat) (score : Int) : FS :=
  cacheAddPostToFeed maxFeedSize (dbAddToFeed fs u p) u p score

/-! ### API layer (`api.py`) and follow flow -/

/-- `FeedService.follow_user(user_id, friend_id)`: create the FOLLOW edge;
on success update the social-graph cache and seed the follower's cached feed
with the followed user's recent posts (`post_batch_size = 20`). -/
def serviceFollowUser (maxFeedSize : Nat) (fs : FS) (u f : Nat) : Bool × FS :=
  match dbCreateRelationship fs u f RelTy.FOLLOW with
  | (none, fs2) => (false, fs2)
  | (some _, fs2) =>
    let fs3 := { fs2 with cacheSocial := alSet fs2.cacheSocial (u, f) RelTy.FOLLOW }
    let recent := dbGetUserPosts fs3 f 20
    (true,
     recent.foldl (fun s post => cacheAddPostToFeed maxFeedSize s u post.1 post.2.2) fs3)

/-- The `POST /api/users/{friend_id}/follow` endpoint: reject a self-follow
with HTTP 400 `Cannot follow yourself` before calling the service; surface a
service failure as HTTP 500; the first component is the error, if any. -/
def apiFollowUser (maxFeedSize : Nat) (fs : FS) (current f : Nat) :
    Option String × FS :=
  if current = f then (some "InvalidArgument", fs)
  else
    match serviceFollowUser maxFeedSize fs current f with
    | (true, fs2) => (none, fs2)
    | (false, fs2) => (some "InternalError", fs2)

/-! ## General lemmas about the association-list embedding -/

theorem alGet_alSet_self {κ β : Type} [DecidableEq κ] (l : List (κ × β)) (k : κ) (v : β) :
    alGet (alSet l k v) k = some v := by
  induction l with
  | nil => simp [alSet, alGet]
  | cons p rest ih =>
    by_cases h : p.1 = k
    · simp [alSet, alGet, h]
    · simpa [alSet, alGet, h] using ih

theorem alGet_alSet_ne {κ β : Type} [DecidableEq κ] (l : List (κ × β)) (k k2 : κ) (v : β)
    (h : k ≠ k2) : alGet (alSet l k v) k2 = alGet l k2 := by
  induction l with
  | nil => simp [alSet, alGet, h]
  | cons p rest ih =>
    by_cases hp : p.1 = k
    · simp [alSet, alGet, hp, h]
    · simp [alSet, alGet, hp]
      by_cases hp2 : p.1 = k2 <;> simp [hp2, ih]

/-! ## Vector-clock compare: characterization -/

theorem compareLoop_eq (a b : Clock) (ids : List String) (ss os : Bool) :
    compareLoop a b ids ss os =
      (if (ss || ids.any (fun id => decide (vcGet a id < vcGet b id))) &&
          (os || ids.any (fun id => decide (vcGet b id < vcGet a id))) then 0
       else if ss || ids.any (fun id => decide (vcGet a id < vcGet b id)) then -1
       else if os || ids.any (fun id => decide (vcGet b id < vcGet a id)) then 1
       else 0) := by
  induction ids generalizing ss os with
  | nil =>
    cases ss <;> cases os <;> simp [compareLoop]
  | cons id rest ih =>
    simp only [compareLoop, List.any_cons]
    by_cases h : ((ss || decide (vcGet a id < vcGet b id)) &&
        (os || decide (vcGet b id < vcGet a id))) = true
    · rw [if_pos h]
      have h1 : (ss || decide (vcGet a id < vcGet b id)) = true ∧
          (os || decide (vcGet b id < vcGet a id)) = true := by
        simpa using h
      have hL : (ss || (decide (vcGet a id < vcGet b id) ||
          rest.any (fun id => decide (vcGet a id < vcGet b id)))) = true := by
        rcases Bool.or_eq_true_iff.mp h1.1 with h' | h' <;> simp [h']
      have hG : (os || (decide (vcGet b id < vcGet a id) ||
          rest.any (fun id => decide (vcGet b id < vcGet a id)))) = true := by
        rcases Bool.or_eq_true_iff.mp h1.2 with h' | h' <;> simp [h']
      rw [if_pos (by simp [hL, hG])]
    · rw [if_neg h, ih]
      have e1 : (ss || decide (vcGet a id < vcGet b id) ||
            rest.any (fun id => decide (vcGet a id < vcGet b id))) =
          (ss || (decide (vcGet a id < vcGet b id) ||
            rest.any (fun id => decide (vcGet a id < vcGet b id)))) := by
        simp [Bool.or_assoc]
      have e2 : (os || decide (vcGet b id < vcGet a id) ||
            rest.any (fun id => decide (vcGet b id < vcGet a id))) =
          (os || (decide (vcGet b id < vcGet a id) ||
            rest.any (fun id => decide (vcGet b id < vcGet a id)))) := by
        simp [Bool.or_assoc]
      rw [e1, e2]

theorem vcCompare_eq (a b : Clock) :
    vcCompare a b =
      (if (allNodeIds a b).any (fun id => decide (vcGet a id < vcGet b id)) &&
          (allNodeIds a b).any (fun id => decide (vcGet b id < vcGet a id)) then 0
       else if (allNodeIds a b).any (fun id => decide (vcGet a id < vcGet b id)) then -1
       else if (allNodeIds a b).any (fun id => decide (vcGet b id < vcGet a id)) then 1
       else 0) := by
  rw [vcCompare, compareLoop_eq]
  simp

theorem mem_allNodeIds (a b : Clock) (x : String) :
    x ∈ allNodeIds a b ↔ x ∈ vcKeys a ∨ x ∈ vcKeys b := by
  simp [allNodeIds, List.mem_dedup, List.mem_append]

theorem anyLt_swap (a b : Clock) :
    ((allNodeIds b a).any (fun id => decide (vcGet a id < vcGet b id)) = true) ↔
      ((allNodeIds a b).any (fun id => decide (vcGet a id < vcGet b id)) = true) := by
  simp only [List.any_eq_true, decide_eq_true_eq]
  constructor
  · rintro ⟨x, hx, hlt⟩
    exact ⟨x, (mem_allNodeIds a b x).mpr ((mem_allNodeIds b a x).mp hx).symm, hlt⟩
  · rintro ⟨x, hx, hlt⟩
    exact ⟨x, (mem_allNodeIds b a x).mpr ((mem_allNodeIds a b x).mp hx).symm, hlt⟩

theorem allLe_iff_not_anyGt (a b : Clock) :
    ((allNodeIds a b).all (fun id => decide (vcGet a id ≤ vcGet b id)) = true) ↔
      ¬ ((allNodeIds a b).any (fun id => decide (vcGet b id < vcGet a id)) = true) := by
  simp only [List.all_eq_true, List.any_eq_true, decide_eq_true_eq, not_exists]
  constructor
  · rintro h x ⟨hx, hlt⟩
    exact absurd (h x hx) (by omega)
  · intro h x hx
    by_contra hc
    exact h x ⟨hx, by omega⟩

theorem allLe_eq_not_anyGt (a b : Clock) :
    (allNodeIds a b).all (fun id => decide (vcGet a id ≤ vcGet b id)) =
      !(allNodeIds a b).any (fun id => decide (vcGet b id < vcGet a id)) := by
  rw [Bool.eq_iff_iff, Bool.not_eq_true', ← Bool.not_eq_true]
  exact allLe_iff_not_anyGt a b

theorem anyLt_swap_eq (a b : Clock) :
    (allNodeIds b a).any (fun id => decide (vcGet a id < vcGet b id)) =
      (allNodeIds a b).any (fun id => decide (vcGet a id < vcGet b id)) := by
  rw [Bool.eq_iff_iff]
  exact anyLt_swap a b

/-- C1 counterexample: the code's `compare` returns the same result (`0`) on
an EQUAL pair (two empty clocks) and on a CONCURRENT pair
(`{N1:1}` against `{N2:1}`), so the EQUAL and CONCURRENT outcomes are not
distinguishable results of `compare`, contrary to the claim. -/
theorem vcCompare_equal_concurrent_indistinguishable :
    specCompare [] [] = CompareOutcome.EQUAL ∧
    specCompare [("n1", 1)] [("n2", 1)] = CompareOutcome.CONCURRENT ∧
    vcCompare [] [] = vcCompare [("n1", 1)] [("n2", 1)] := by
  decide

/-- C1 (amended): `compare` is three-valued — it returns `-1`, `0` or `1`,
with `-1` exactly on the specification's BEFORE, `1` exactly on AFTER, and
`0` on both EQUAL and CONCURRENT (the two are conflated); moreover
`compare(A,B) = -1` if and only if `compare(B,A) = 1`. -/
theorem vcCompare_classification (a b : Clock) :
    (vcCompare a b = -1 ∨ vcCompare a b = 0 ∨ vcCompare a b = 1) ∧
    (vcCompare a b = -1 ↔ specCompare a b = CompareOutcome.BEFORE) ∧
    (vcCompare a b = 1 ↔ specCompare a b = CompareOutcome.AFTER) ∧
    (vcCompare a b = 0 ↔
      (specCompare a b = CompareOutcome.EQUAL ∨
        specCompare a b = CompareOutcome.CONCURRENT)) ∧
    (vcCompare a b = -1 ↔ vcCompare b a = 1) := by
  have eAllab := allLe_eq_not_anyGt a b
  have eAllba := allLe_eq_not_anyGt b a
  have eSwapAB := anyLt_swap_eq a b
  have eSwapBA := anyLt_swap_eq b a
  cases hLa : (allNodeIds a b).any (fun id => decide (vcGet a id < vcGet b id)) with
  | false =>
    cases hGa : (allNodeIds a b).any (fun id => decide (vcGet b id < vcGet a id)) with
    | false =>
      simp [vcCompare_eq, specCompare, specLtB, eAllab, eAllba, eSwapAB, ← eSwapBA,
        hLa, hGa]
    | true =>
      simp [vcCompare_eq, specCompare, specLtB, eAllab, eAllba, eSwapAB, ← eSwapBA,
        hLa, hGa]
  | true =>
    cases hGa : (allNodeIds a b).any (fun id => decide (vcGet b id < vcGet a id)) with
    | false =>
      simp [vcCompare_eq, specCompare, specLtB, eAllab, eAllba, eSwapAB, ← eSwapBA,
        hLa, hGa]
    | true =>
      simp [vcCompare_eq, specCompare, specLtB, eAllab, eAllba, eSwapAB, ← eSwapBA,
        hLa, hGa]

/-! ## Versioned-store `put`: the causally-older write path (C3) -/

theorem alGet_append_right {κ β : Type} [DecidableEq κ] (l1 l2 : List (κ × β)) (k : κ)
    (h : alGet l1 k = none) : alGet (l1 ++ l2) k = alGet l2 k := by
  induction l1 with
  | nil => simp
  | cons p rest ih =>
    by_cases hp : p.1 = k
    · simp [alGet, hp] at h
    · simp only [alGet, hp, if_false, List.cons_append] at h ⊢
      exact ih h

theorem dataStorePut_key_present {α : Type} (nodeId : String) (store : StoreData α)
    (key : String) (value : α) (context : Option Clock) (now : Nat) :
    (alGet (dataStorePut nodeId store key value context now).2 key).isSome = true := by
  unfold dataStorePut
  cases h : alGet store key with
  | none =>
    rw [alGet_append_right store _ key h]
    simp [alGet]
  | some vs => simp [alGet_alSet_self]

/-- C3 counterexample: on node `n1`, after two writes the key `k` holds the
single sibling with clock `{n1:2}`; a third `put` with empty context derives
the clock `{n1:1}`, which compares BEFORE the sibling.  The write is
discarded and the sibling survives alone, but `put` returns the discarded
new clock `{n1:1}`, not the surviving sibling's clock `{n1:2}` as the claim
states. -/
theorem dataStorePut_before_returns_new_clock :
    vcCompare (vcIncrement [] "n1") [("n1", 2)] = -1 ∧
    (dataStorePut "n1" [("k", [⟨20, [("n1", 2)], 2⟩])] "k" (30 : Nat) none 3).2 =
      [("k", [⟨20, [("n1", 2)], 2⟩])] ∧
    (dataStorePut "n1" [("k", [⟨20, [("n1", 2)], 2⟩])] "k" (30 : Nat) none 3).1 =
      [("n1", 1)] ∧
    ([("n1", 1)] : Clock) ≠ [("n1", 2)] := by
  decide

/-- C3 (amended): when the key holds a single sibling and the clock derived
from the context compares BEFORE that sibling's clock, the write is
discarded and the sibling remains the sole stored version — but the
operation returns the newly derived (discarded) clock, not the surviving
sibling's clock. -/
theorem dataStorePut_before_discards {α : Type} (nodeId key : String)
    (store : StoreData α) (sib : VersionedValue α) (value : α)
    (context : Option Clock) (now : Nat)
    (hk : alGet store key = some [sib])
    (hb : vcCompare (vcIncrement (context.getD []) nodeId) sib.clock = -1) :
    alGet (dataStorePut nodeId store key value context now).2 key = some [sib] ∧
    (dataStorePut nodeId store key value context now).1 =
      vcIncrement (context.getD []) nodeId := by
  unfold dataStorePut
  simp only [hk]
  constructor
  · simp only [handleConflictsLoop, hb]
    simp [alGet_alSet_self]
  · trivial

/-- Witness for `dataStorePut_before_discards` at the counterexample
input. -/
theorem dataStorePut_before_discards_witness :
    alGet (dataStorePut "n1" [("k", [⟨20, [("n1", 2)], 2⟩])] "k" (30 : Nat) none 3).2 "k" =
      some [⟨20, [("n1", 2)], 2⟩] ∧
    (dataStorePut "n1" [("k", [⟨20, [("n1", 2)], 2⟩])] "k" (30 : Nat) none 3).1 =
      vcIncrement ((none : Option Clock).getD []) "n1" :=
  dataStorePut_before_discards "n1" "k" _ _ 30 none 3 (by decide) (by decide)

/-! ## Node coordinator `put`: quorum claim (C2) -/

/-- C2 counterexample: a three-node cluster with empty stores, `W = 2`, and
one positive simulated draw.  The coordinator `A` reports success, yet the
value is persisted in exactly one local store (`A`'s own) — fewer than
`W = 2` replicas. -/
theorem nodePut_success_single_persisted :
    (nodePut "A" ([("A", []), ("B", []), ("C", [])] : Cluster Nat)
        ["A", "B", "C"] 2 [true] "k" 5 none 0).1 = true ∧
    ((nodePut "A" ([("A", []), ("B", []), ("C", [])] : Cluster Nat)
        ["A", "B", "C"] 2 [true] "k" 5 none 0).2.filter
      (fun p => (alGet p.2 "k").isSome)).map Prod.fst = ["A"] := by
  decide

/-- C2 (amended): when `Node.put` returns success, the written value has
been persisted in the coordinator's own local store only; every other
node's store is untouched — the remaining quorum count comes from simulated
replica acknowledgments that perform no writes. -/
theorem nodePut_persists_locally_only {α : Type} (selfId : String) (cluster : Cluster α)
    (responsible : List String) (W : Nat) (draws : List Bool) (key : String)
    (value : α) (context : Option Clock) (now : Nat)
    (h : (nodePut selfId cluster responsible W draws key value context now).1 = true) :
    (alGet ((alGet (nodePut selfId cluster responsible W draws key value context now).2
        selfId).getD []) key).isSome = true ∧
    ∀ n, n ≠ selfId →
      alGet (nodePut selfId cluster responsible W draws key value context now).2 n =
        alGet cluster n := by
  by_cases h0 : responsible = []
  · simp [nodePut, h0] at h
  · by_cases h1 : selfId ∈ responsible
    · unfold nodePut
      simp only [h0, if_false, h1, if_true, if_pos]
      constructor
      · rw [alGet_alSet_self]
        exact dataStorePut_key_present selfId _ key value context now
      · intro n hn
        exact alGet_alSet_ne cluster selfId n _ (fun he => hn he.symm)
    · simp [nodePut, h0, h1] at h

/-- Witness for `nodePut_persists_locally_only` at the counterexample
input, specialized to the untouched node `B`. -/
theorem nodePut_persists_locally_only_witness :
    (alGet ((alGet (nodePut "A" ([("A", []), ("B", []), ("C", [])] : Cluster Nat)
        ["A", "B", "C"] 2 [true] "k" 5 none 0).2 "A").getD []) "k").isSome = true ∧
    alGet (nodePut "A" ([("A", []), ("B", []), ("C", [])] : Cluster Nat)
        ["A", "B", "C"] 2 [true] "k" 5 none 0).2 "B" =
      alGet ([("A", []), ("B", []), ("C", [])] : Cluster Nat) "B" := by
  have h := nodePut_persists_locally_only "A"
    ([("A", []), ("B", []), ("C", [])] : Cluster Nat)
    ["A", "B", "C"] 2 [true] "k" 5 none 0 (by decide)
  exact ⟨h.1, h.2 "B" (by decide)⟩

/-! ## Snowflake id monotonicity (C7) -/

theorem mask_mod (n : Nat) : n &&& 4095 = n % 4096 := by
  have h := Nat.and_pow_two_sub_one_eq_mod n 12
  norm_num at h
  exact h

theorem mul_pow_lor (k : Nat) :
    ∀ a b : Nat, b < 2 ^ k → (a * 2 ^ k) ||| b = a * 2 ^ k + b := by
  induction k with
  | zero =>
    intro a b h
    have hb : b = 0 := by omega
    subst hb
    simp
  | succ k ih =>
    intro a b h
    have hm : b / 2 < 2 ^ k := by
      have h2 : (2 : Nat) ^ (k + 1) = 2 ^ k * 2 := by rw [pow_succ]
      omega
    have hb : b = Nat.bit (decide (b % 2 = 1)) (b / 2) := by
      rcases Nat.mod_two_eq_zero_or_one b with h2 | h2 <;>
        simp [Nat.bit_val, h2] <;> omega
    have ha : a * 2 ^ (k + 1) = Nat.bit false (a * 2 ^ k) := by
      simp [Nat.bit_val, pow_succ]
      ring
    rw [hb, ha, Nat.lor_bit, ih a (b / 2) hm, Nat.bit_val, Nat.bit_val]
    have h2 : (2 : Nat) ^ (k + 1) = 2 ^ k * 2 := by rw [pow_succ]
    rcases Nat.mod_two_eq_zero_or_one b with h3 | h3 <;> simp [h3] <;>
      generalize a * 2 ^ k = X at * <;> omega

theorem composeId_eq (dc mc ts seq : Nat) (hdc : dc ≤ 31) (hmc : mc ≤ 31)
    (hseq : seq ≤ 4095) :
    composeId dc mc ts seq = ts * 2 ^ 22 + (dc * 2 ^ 17 + mc * 2 ^ 12 + seq) := by
  have hb1 : dc * 2 ^ 17 < 2 ^ 22 :=
    calc dc * 2 ^ 17 ≤ 31 * 2 ^ 17 := Nat.mul_le_mul_right _ hdc
    _ < 2 ^ 22 := by norm_num
  have hb2 : mc * 2 ^ 12 < 2 ^ 17 :=
    calc mc * 2 ^ 12 ≤ 31 * 2 ^ 12 := Nat.mul_le_mul_right _ hmc
    _ < 2 ^ 17 := by norm_num
  have hb3 : seq < 2 ^ 12 := by omega
  unfold composeId TIMESTAMP_SHIFT DATACENTER_ID_SHIFT MACHINE_ID_SHIFT
  rw [Nat.shiftLeft_eq, Nat.shiftLeft_eq, Nat.shiftLeft_eq]
  rw [mul_pow_lor 22 ts (dc * 2 ^ 17) hb1]
  have e2 : ts * 2 ^ 22 + dc * 2 ^ 17 = (ts * 2 ^ 5 + dc) * 2 ^ 17 := by ring
  rw [e2, mul_pow_lor 17 _ (mc * 2 ^ 12) hb2]
  have e3 : (ts * 2 ^ 5 + dc) * 2 ^ 17 + mc * 2 ^ 12 =
      (ts * 2 ^ 10 + dc * 2 ^ 5 + mc) * 2 ^ 12 := by ring
  rw [e3, mul_pow_lor 12 _ seq hb3]
  ring

theorem composeId_lt (dc mc ts1 seq1 ts2 seq2 : Nat) (hdc : dc ≤ 31) (hmc : mc ≤ 31)
    (hseq1 : seq1 ≤ 4095) (hseq2 : seq2 ≤ 4095)
    (h : ts1 < ts2 ∨ (ts1 = ts2 ∧ seq1 < seq2)) :
    composeId dc mc ts1 seq1 < composeId dc mc ts2 seq2 := by
  rw [composeId_eq dc mc ts1 seq1 hdc hmc hseq1,
    composeId_eq dc mc ts2 seq2 hdc hmc hseq2]
  have hl1 : dc * 2 ^ 17 + mc * 2 ^ 12 + seq1 < 2 ^ 22 := by
    have h1 : dc * 2 ^ 17 ≤ 31 * 2 ^ 17 := Nat.mul_le_mul_right _ hdc
    have h2 : mc * 2 ^ 12 ≤ 31 * 2 ^ 12 := Nat.mul_le_mul_right _ hmc
    norm_num at h1 h2 ⊢
    omega
  have hl2 : dc * 2 ^ 17 + mc * 2 ^ 12 + seq2 < 2 ^ 22 := by
    have h1 : dc * 2 ^ 17 ≤ 31 * 2 ^ 17 := Nat.mul_le_mul_right _ hdc
    have h2 : mc * 2 ^ 12 ≤ 31 * 2 ^ 12 := Nat.mul_le_mul_right _ hmc
    norm_num at h1 h2 ⊢
    omega
  rcases h with h | ⟨he, hs⟩
  · have hmul : (ts1 + 1) * 2 ^ 22 ≤ ts2 * 2 ^ 22 := Nat.mul_le_mul_right _ h
    have hexp : (ts1 + 1) * 2 ^ 22 = ts1 * 2 ^ 22 + 2 ^ 22 := by ring
    generalize ts1 * 2 ^ 22 = X at *
    generalize ts2 * 2 ^ 22 = Y at *
    norm_num at hl1 hl2 hexp hmul ⊢
    omega
  · subst he
    generalize ts1 * 2 ^ 22 = X
    omega

theorem waitNextMillis_gt (last : Int) (l : List Nat) (t : Nat)
    (h : waitNextMillis last l = some t) : last < (t : Int) := by
  induction l with
  | nil => simp [waitNextMillis] at h
  | cons x xs ih =>
    by_cases hx : (x : Int) ≤ last
    · rw [waitNextMillis, if_pos hx] at h
      exact ih h
    · rw [waitNextMillis, if_neg hx] at h
      have hxe : x = t := by simpa using h
      subst hxe
      omega

theorem nextId_step (dc mc : Nat) (s : GenState) (t : Nat) (future : List Nat)
    (id : Nat) (s2 : GenState) (hseq : s.sequence ≤ 4095)
    (h : nextId dc mc s t future = some (id, s2)) :
    s2.sequence ≤ 4095 ∧ 0 ≤ s2.lastTimestamp ∧
    id = composeId dc mc s2.lastTimestamp.toNat s2.sequence ∧
    (s.lastTimestamp < s2.lastTimestamp ∨
      (s.lastTimestamp = s2.lastTimestamp ∧ s.sequence < s2.sequence)) := by
  unfold nextId at h
  by_cases h1 : (t : Int) < s.lastTimestamp
  · simp [h1] at h
  · rw [if_neg h1] at h
    by_cases h2 : (t : Int) = s.lastTimestamp
    · rw [if_pos h2] at h
      simp only [MAX_SEQUENCE, mask_mod] at h
      by_cases h3 : (s.sequence + 1) % 4096 = 0
      · rw [if_pos h3] at h
        cases hw : waitNextMillis s.lastTimestamp future with
        | none => rw [hw] at h; exact absurd h (by simp)
        | some t2 =>
          rw [hw] at h
          simp only [Option.some.injEq, Prod.mk.injEq] at h
          obtain ⟨hid, hs2⟩ := h
          have hgt := waitNextMillis_gt _ _ _ hw
          subst hs2
          refine ⟨by simp; omega, by simp, ?_, Or.inl (by simpa using hgt)⟩
          rw [← hid]
          simp
      · rw [if_neg h3] at h
        simp only [Option.some.injEq, Prod.mk.injEq] at h
        obtain ⟨hid, hs2⟩ := h
        have hmod : (s.sequence + 1) % 4096 = s.sequence + 1 :=
          Nat.mod_eq_of_lt (by omega)
        subst hs2
        refine ⟨by simp; omega, by simp, ?_, Or.inr ⟨by simpa using h2.symm, by simp; omega⟩⟩
        rw [← hid]
        simp
    · rw [if_neg h2] at h
      simp only [Option.some.injEq, Prod.mk.injEq] at h
      obtain ⟨hid, hs2⟩ := h
      have hlt : s.lastTimestamp < (t : Int) := by omega
      subst hs2
      refine ⟨by simp, by simp, ?_, Or.inl (by simpa using hlt)⟩
      rw [← hid]
      simp

theorem runGen_mono (dc mc : Nat) (hdc : dc ≤ 31) (hmc : mc ≤ 31) :
    ∀ (calls : List (Nat × List Nat)) (s : GenState) (ids : List Nat) (sf : GenState),
      s.sequence ≤ 4095 →
      runGen dc mc s calls = some (ids, sf) →
      ids.Pairwise (fun x y => x < y) ∧
      (0 ≤ s.lastTimestamp →
        ∀ x ∈ ids, composeId dc mc s.lastTimestamp.toNat s.sequence < x) := by
  intro calls
  induction calls with
  | nil =>
    intro s ids sf hs h
    simp only [runGen, Option.some.injEq, Prod.mk.injEq] at h
    obtain ⟨h1, _⟩ := h
    subst h1
    simp
  | cons c rest ih =>
    intro s ids sf hs h
    rcases c with ⟨t, fut⟩
    unfold runGen at h
    cases hn : nextId dc mc s t fut with
    | none => simp [hn] at h
    | some p =>
      rcases p with ⟨id, s2⟩
      simp only [hn] at h
      cases hr : runGen dc mc s2 rest with
      | none => simp [hr] at h
      | some q =>
        rcases q with ⟨ids2, sf2⟩
        simp only [hr, Option.some.injEq, Prod.mk.injEq] at h
        obtain ⟨hids, _⟩ := h
        obtain ⟨hs2seq, hs2pos, hid, hlex⟩ := nextId_step dc mc s t fut id s2 hs hn
        obtain ⟨hpw, hgt⟩ := ih s2 ids2 sf2 hs2seq hr
        have hallgt : ∀ x ∈ ids2, id < x := by
          intro x hx
          have hg := hgt hs2pos x hx
          rwa [← hid] at hg
        subst hids
        refine ⟨List.pairwise_cons.mpr ⟨hallgt, hpw⟩, ?_⟩
        intro hpos x hx
        have hlt_id : composeId dc mc s.lastTimestamp.toNat s.sequence < id := by
          rw [hid]
          apply composeId_lt dc mc _ _ _ _ hdc hmc hs hs2seq
          rcases hlex with hl | ⟨he, hseqlt⟩
          · left; omega
          · right; exact ⟨by omega, hseqlt⟩
        rcases List.mem_cons.mp hx with rfl | hx2
        · exact hlt_id
        · exact lt_trans hlt_id (hallgt x hx2)

/-- C7: for one allocator with a fixed (datacenter, machine) pair, every
successful run emits strictly increasing ids — any id emitted earlier is
smaller than any id emitted later, across same-millisecond sequence
increments and across the busy-wait taken on sequence wrap; and whenever the
observed clock is behind the recorded `last_timestamp`, `next_id` raises
(emits nothing). -/
theorem snowflake_monotonic (dc mc : Nat) (calls : List (Nat × List Nat))
    (ids : List Nat) (sf : GenState) (hdc : dc ≤ 31) (hmc : mc ≤ 31)
    (h : runGen dc mc genInit calls = some (ids, sf)) :
    ids.Pairwise (fun x y => x < y) ∧
    ∀ (s : GenState) (t : Nat) (fut : List Nat),
      (t : Int) < s.lastTimestamp → nextId dc mc s t fut = none := by
  refine ⟨(runGen_mono dc mc hdc hmc calls genInit ids sf (by decide) h).1, ?_⟩
  intro s t fut hlt
  simp [nextId, hlt]

/-- Witness for `snowflake_monotonic`: a concrete three-call run (two calls
in millisecond 5, one in millisecond 7) of the allocator (datacenter 1,
machine 2). -/
theorem snowflake_monotonic_witness :
    List.Pairwise (fun x y => x < y) [21110784, 21110785, 29499392] :=
  (snowflake_monotonic 1 2 [(5, []), (5, []), (7, [])]
    [21110784, 21110785, 29499392] ⟨0, 7⟩ (by decide) (by decide) (by decide)).1

/-! ## Feed trim (C8) -/

theorem dbAddToFeed_dbFeed (fs : FS) (u p : Nat) :
    (dbAddToFeed fs u p).dbFeed = fs.dbFeed ∨
    (dbAddToFeed fs u p).dbFeed = fs.dbFeed ++ [(u, p)] := by
  unfold dbAddToFeed
  by_cases h : (fs.dbFeed.find? (fun r => decide (r.1 = u ∧ r.2 = p))).isSome
  · left; rw [if_pos h]
  · right; rw [if_neg h]

theorem dbAddToFeed_fresh (fs : FS) (u p : Nat) (h : (u, p) ∉ fs.dbFeed) :
    (dbAddToFeed fs u p).dbFeed = fs.dbFeed ++ [(u, p)] := by
  unfold dbAddToFeed
  rw [if_neg]
  intro hc
  rcases Option.isSome_iff_exists.mp hc with ⟨r, hr⟩
  have hrm := List.mem_of_find?_eq_some hr
  have hre := List.find?_some hr
  simp only [decide_eq_true_eq] at hre
  exact h (by
    have : r = (u, p) := Prod.ext hre.1 hre.2
    rwa [this] at hrm)

theorem cacheAddPostToFeed_dbFeed (maxFeedSize : Nat) (fs : FS) (u p : Nat)
    (score : Int) : (cacheAddPostToFeed maxFeedSize fs u p score).dbFeed = fs.dbFeed :=
  rfl

theorem feedAppend_dbFeed_fresh (maxFeedSize : Nat) (fs : FS) (u p : Nat) (score : Int)
    (h : (u, p) ∉ fs.dbFeed) :
    (feedAppend maxFeedSize fs u p score).dbFeed = fs.dbFeed ++ [(u, p)] := by
  unfold feedAppend
  rw [cacheAddPostToFeed_dbFeed]
  exact dbAddToFeed_fresh fs u p h

theorem feedAppend_run_length (maxFeedSize : Nat) (u : Nat) :
    ∀ (ps : List Nat) (fs : FS), ps.Nodup → (∀ q ∈ ps, (u, q) ∉ fs.dbFeed) →
      (ps.foldl (fun s q => feedAppend maxFeedSize s u q (q : Int)) fs).dbFeed.length =
        fs.dbFeed.length + ps.length := by
  intro ps
  induction ps with
  | nil => intro fs _ _; simp
  | cons p rest ih =>
    intro fs hnd hfresh
    have hstep := feedAppend_dbFeed_fresh maxFeedSize fs u p (p : Int)
      (hfresh p (List.mem_cons_self p rest))
    have hfresh2 : ∀ q ∈ rest, (u, q) ∉
        (feedAppend maxFeedSize fs u p (p : Int)).dbFeed := by
      intro q hq
      rw [hstep]
      intro hmem
      rcases List.mem_append.mp hmem with hmem | hmem
      · exact hfresh q (List.mem_cons_of_mem p hq) hmem
      · have : q = p := by simpa using hmem
        exact (List.nodup_cons.mp hnd).1 (this ▸ hq)
    have := ih (feedAppend maxFeedSize fs u p (p : Int))
      (List.nodup_cons.mp hnd).2 hfresh2
    simp only [List.foldl_cons, this, hstep]
    simp
    omega

/-- C8 counterexample: with the configured `max_feed_size = 1000`, a
sequence of 1001 appends of distinct posts to one user's feed index leaves
1001 rows in the persisted `news_feed` index — `add_to_feed` applies no
cap, so the persisted index exceeds MaxFeedSize. -/
theorem dbFeed_exceeds_maxFeedSize :
    ((List.range 1001).foldl (fun s q => feedAppend 1000 s 0 q (q : Int))
      emptyFS).dbFeed.length = 1001 ∧ 1000 < 1001 := by
  constructor
  · have h := feedAppend_run_length 1000 0 (List.range 1001) emptyFS
      (List.nodup_range 1001) (by intro q _ hq; simp [emptyFS] at hq)
    simpa using h
  · omega

/-- C8 (amended): one append keeps the CACHED index at no more than
`max_feed_size` entries and everything it discards is ranked no higher
(by score, then member) than everything it keeps; the PERSISTED index is
append-only — `add_to_feed` inserts the row when absent and never trims. -/
theorem cacheFeed_trim_bound (maxFeedSize : Nat) (fs : FS) (u p : Nat) (score : Int) :
    ((alGet (cacheAddPostToFeed maxFeedSize fs u p score).cacheFeeds u).getD
      []).length ≤ maxFeedSize ∧
    (∀ x ∈ alSet ((alGet fs.cacheFeeds u).getD []) p score,
      x ∉ (alGet (cacheAddPostToFeed maxFeedSize fs u p score).cacheFeeds u).getD [] →
      ∀ y ∈ (alGet (cacheAddPostToFeed maxFeedSize fs u p score).cacheFeeds u).getD [],
        zle x y) ∧
    ((dbAddToFeed fs u p).dbFeed = fs.dbFeed ∨
      (dbAddToFeed fs u p).dbFeed = fs.dbFeed ++ [(u, p)]) := by
  have hfeed : (alGet (cacheAddPostToFeed maxFeedSize fs u p score).cacheFeeds u).getD []
      = zTrim maxFeedSize (alSet ((alGet fs.cacheFeeds u).getD []) p score) := by
    unfold cacheAddPostToFeed
    rw [alGet_alSet_self]
    rfl
  set L := alSet ((alGet fs.cacheFeeds u).getD []) p score with hL
  have hperm := List.perm_insertionSort zle L
  have hlen : (L.insertionSort zle).length = L.length := hperm.length_eq
  refine ⟨?_, ?_, dbAddToFeed_dbFeed fs u p⟩
  · rw [hfeed]
    unfold zTrim
    rw [List.length_drop, hlen]
    omega
  · intro x hxL hxdrop y hy
    rw [hfeed] at hxdrop hy
    unfold zTrim at hxdrop hy
    have hxS : x ∈ L.insertionSort zle := hperm.mem_iff.mpr hxL
    have hxtake : x ∈ (L.insertionSort zle).take (L.length - maxFeedSize) := by
      have := (List.take_append_drop (L.length - maxFeedSize)
        (L.insertionSort zle)).symm
      rw [this] at hxS
      rcases List.mem_append.mp hxS with hmem | hmem
      · exact hmem
      · exact absurd hmem hxdrop
    have hsorted : List.Pairwise zle (L.insertionSort zle) :=
      List.sorted_insertionSort zle L
    have hp2 : List.Pairwise zle
        ((L.insertionSort zle).take (L.length - maxFeedSize) ++
          (L.insertionSort zle).drop (L.length - maxFeedSize)) := by
      rwa [List.take_append_drop]
    exact ((List.pairwise_append.mp hp2).2.2) x hxtake y hy

/-- Witness for `cacheFeed_trim_bound`: with `max_feed_size = 2`, appending
post 3 to a feed already holding posts 1 and 2 keeps two entries, and the
dropped entry (1, 1) ranks no higher than the kept entry (2, 2). -/
theorem cacheFeed_trim_bound_witness :
    ((alGet (cacheAddPostToFeed 2
        (feedAppend 2 (feedAppend 2 emptyFS 0 1 1) 0 2 2) 0 3 3).cacheFeeds 0).getD
      []).length ≤ 2 ∧
    zle (1, 1) (2, 2) := by
  have h := cacheFeed_trim_bound 2 (feedAppend 2 (feedAppend 2 emptyFS 0 1 1) 0 2 2) 0 3 3
  exact ⟨h.1, h.2.1 (1, 1) (by decide) (by decide) (2, 2) (by decide)⟩

/-! ## Action idempotence and counters (C6) -/

theorem addAction_base (u p : Nat) (t : ActionTy) :
    addAction emptyFS u p t =
      { emptyFS with
        actions := [⟨u, p, t⟩]
        actionSets := [((p, t), [u])]
        counters := [((p, t), 1)] } := by
  simp [addAction, dbCreateAction, cacheAddAction, alGet, alSet, emptyFS]

theorem addAction_step (u p : Nat) (t : ActionTy) (k : Int) :
    addAction
      { emptyFS with
        actions := [⟨u, p, t⟩]
        actionSets := [((p, t), [u])]
        counters := [((p, t), k)] } u p t =
      { emptyFS with
        actions := [⟨u, p, t⟩]
        actionSets := [((p, t), [u])]
        counters := [((p, t), k + 1)] } := by
  simp [addAction, dbCreateAction, cacheAddAction, alGet, alSet, emptyFS]

theorem addAction_iterate (u p : Nat) (t : ActionTy) :
    ∀ n : Nat, 1 ≤ n →
      (fun s => addAction s u p t)^[n] emptyFS =
        { emptyFS with
          actions := [⟨u, p, t⟩]
          actionSets := [((p, t), [u])]
          counters := [((p, t), (n : Int))] } := by
  intro n
  induction n with
  | zero => omega
  | succ m ih =>
    intro _
    rw [Function.iterate_succ_apply']
    rcases Nat.eq_zero_or_pos m with h0 | h0
    · subst h0
      simp only [Function.iterate_zero, id_eq]
      rw [addAction_base]
      norm_num
    · rw [ih h0, addAction_step]
      norm_num

/-- C6 counterexample: two consecutive `addAction(1, 2, LIKE)` calls leave
exactly one action row (and one member in the `action:2:like` set), but the
`counter:2:like` cache counter is incremented on each call and ends at 2,
not 1 — `ActionCache.add_action` runs `INCR` unconditionally. -/
theorem addAction_counter_double_increment :
    (addAction (addAction emptyFS 1 2 ActionTy.LIKE) 1 2 ActionTy.LIKE).actions =
      [⟨1, 2, ActionTy.LIKE⟩] ∧
    alGet (addAction (addAction emptyFS 1 2 ActionTy.LIKE) 1 2
      ActionTy.LIKE).counters (2, ActionTy.LIKE) = some 2 ∧
    (2 : Int) ≠ 1 := by
  decide

/-- C6 (amended): N ≥ 1 consecutive `addAction(u, p, t)` calls leave exactly
one stored action row for the triple and one member in the action set, but
the `counter:{p}:{t}` cache counter is incremented N times — once per call,
not once in total. -/
theorem addAction_rows_unique_counter_counts_calls (u p : Nat) (t : ActionTy)
    (n : Nat) (hn : 1 ≤ n) :
    ((fun s => addAction s u p t)^[n] emptyFS).actions = [⟨u, p, t⟩] ∧
    alGet ((fun s => addAction s u p t)^[n] emptyFS).actionSets (p, t) = some [u] ∧
    alGet ((fun s => addAction s u p t)^[n] emptyFS).counters (p, t) =
      some (n : Int) := by
  rw [addAction_iterate u p t n hn]
  refine ⟨rfl, ?_, ?_⟩ <;> simp [alGet]

/-- Witness for `addAction_rows_unique_counter_counts_calls` at N = 3. -/
theorem addAction_rows_unique_witness :
    ((fun s => addAction s 1 2 ActionTy.LIKE)^[3] emptyFS).actions =
      [⟨1, 2, ActionTy.LIKE⟩] ∧
    alGet ((fun s => addAction s 1 2 ActionTy.LIKE)^[3] emptyFS).actionSets
      (2, ActionTy.LIKE) = some [1] ∧
    alGet ((fun s => addAction s 1 2 ActionTy.LIKE)^[3] emptyFS).counters
      (2, ActionTy.LIKE) = some ((3 : Nat) : Int) :=
  addAction_rows_unique_counter_counts_calls 1 2 ActionTy.LIKE 3 (by decide)

/-! ## Self-edges in the social graph (C10) -/

/-- C10 counterexample: with user 0 present and no existing edge,
`create_relationship(0, 0, FOLLOW)` succeeds and inserts the self-edge
`(0, 0)` into the relationships collection — no `InvalidArgument` is raised
at the social-graph layer, contrary to the claim. -/
theorem createRelationship_self_edge_accepted :
    (dbCreateRelationship { emptyFS with users := [0] } 0 0 RelTy.FOLLOW).1 =
      some ⟨0, 0, RelTy.FOLLOW⟩ ∧
    (⟨0, 0, RelTy.FOLLOW⟩ : RelRow) ∈
      (dbCreateRelationship { emptyFS with users := [0] } 0 0
        RelTy.FOLLOW).2.relationships := by
  decide

/-- C10 (amended): only the HTTP follow endpoint rejects a self-follow,
answering `InvalidArgument` (HTTP 400 `Cannot follow yourself`) with the
state untouched; the underlying `create_relationship` accepts self-edges of
every relationship type — for an existing user with no prior self-edge it
inserts the `(u, u)` edge and returns it (so for example `block` creates a
self-edge). -/
theorem selfFollow_rejected_only_at_api (maxFeedSize u : Nat) (fs : FS) (t : RelTy)
    (hu : u ∈ fs.users) (hnone : dbGetRelationship fs u u = none) :
    apiFollowUser maxFeedSize fs u u = (some "InvalidArgument", fs) ∧
    (dbCreateRelationship fs u u t).1 = some ⟨u, u, t⟩ ∧
    (dbCreateRelationship fs u u t).2.relationships =
      fs.relationships ++ [⟨u, u, t⟩] := by
  refine ⟨by simp [apiFollowUser], ?_, ?_⟩ <;>
    simp [dbCreateRelationship, hu, hnone]

/-- Witness for `selfFollow_rejected_only_at_api` with user 0 and a BLOCK
self-edge. -/
theorem selfFollow_rejected_only_at_api_witness :
    apiFollowUser 1000 { emptyFS with users := [0] } 0 0 =
      (some "InvalidArgument", { emptyFS with users := [0] }) ∧
    (dbCreateRelationship { emptyFS with users := [0] } 0 0 RelTy.BLOCK).1 =
      some ⟨0, 0, RelTy.BLOCK⟩ ∧
    (dbCreateRelationship { emptyFS with users := [0] } 0 0
        RelTy.BLOCK).2.relationships =
      ({ emptyFS with users := [0] } : FS).relationships ++ [⟨0, 0, RelTy.BLOCK⟩] :=
  selfFollow_rejected_only_at_api 1000 0 { emptyFS with users := [0] } RelTy.BLOCK
    (by decide) (by decide)

/-! ## Fanout frame lemmas (C4, C5) -/

theorem dbAddToFeed_relationships (fs : FS) (u p : Nat) :
    (dbAddToFeed fs u p).relationships = fs.relationships := by
  unfold dbAddToFeed
  split <;> rfl

theorem dbAddToFeed_queue (fs : FS) (u p : Nat) :
    (dbAddToFeed fs u p).queue = fs.queue := by
  unfold dbAddToFeed
  split <;> rfl

theorem dbAddToFeed_celebrity (fs : FS) (u p : Nat) :
    (dbAddToFeed fs u p).celebrity = fs.celebrity := by
  unfold dbAddToFeed
  split <;> rfl

theorem dbGetRelationshipType_congr (fs1 fs2 : FS)
    (h : fs1.relationships = fs2.relationships) (u f : Nat) :
    dbGetRelationshipType fs1 u f = dbGetRelationshipType fs2 u f := by
  unfold dbGetRelationshipType dbGetRelationship
  rw [h]

theorem dbGetFollowers_congr (fs1 fs2 : FS)
    (h : fs1.relationships = fs2.relationships) (u : Nat) :
    dbGetFollowers fs1 u = dbGetFollowers fs2 u := by
  unfold dbGetFollowers
  rw [h]

theorem fanoutFollowerStep_relationships (maxFeedSize author post : Nat)
    (score : Int) (fs : FS) (f : Nat) :
    (fanoutFollowerStep maxFeedSize author post score fs f).relationships =
      fs.relationships := by
  unfold fanoutFollowerStep
  cases h : dbGetRelationshipType fs f author with
  | none => exact dbAddToFeed_relationships fs f post
  | some ty =>
    cases ty
    case BLOCK => rfl
    all_goals exact dbAddToFeed_relationships fs f post

theorem fanoutFollowerStep_queue (maxFeedSize author post : Nat)
    (score : Int) (fs : FS) (f : Nat) :
    (fanoutFollowerStep maxFeedSize author post score fs f).queue = fs.queue := by
  unfold fanoutFollowerStep
  cases h : dbGetRelationshipType fs f author with
  | none => exact dbAddToFeed_queue fs f post
  | some ty =>
    cases ty
    case BLOCK => rfl
    all_goals exact dbAddToFeed_queue fs f post

theorem fanoutFollowerStep_celebrity (maxFeedSize author post : Nat)
    (score : Int) (fs : FS) (f : Nat) :
    (fanoutFollowerStep maxFeedSize author post score fs f).celebrity =
      fs.celebrity := by
  unfold fanoutFollowerStep
  cases h : dbGetRelationshipType fs f author with
  | none => exact dbAddToFeed_celebrity fs f post
  | some ty =>
    cases ty
    case BLOCK => rfl
    all_goals exact dbAddToFeed_celebrity fs f post

theorem fanoutFollowers_relationships (maxFeedSize author post : Nat) (score : Int) :
    ∀ (l : List Nat) (fs : FS),
      (fanoutFollowers maxFeedSize author post score fs l).relationships =
        fs.relationships := by
  intro l
  induction l with
  | nil => intro fs; rfl
  | cons g rest ih =>
    intro fs
    rw [fanoutFollowers, ih, fanoutFollowerStep_relationships]

theorem fanoutFollowers_queue (maxFeedSize author post : Nat) (score : Int) :
    ∀ (l : List Nat) (fs : FS),
      (fanoutFollowers maxFeedSize author post score fs l).queue = fs.queue := by
  intro l
  induction l with
  | nil => intro fs; rfl
  | cons g rest ih =>
    intro fs
    rw [fanoutFollowers, ih, fanoutFollowerStep_queue]

theorem fanoutFollowers_celebrity (maxFeedSize author post : Nat) (score : Int) :
    ∀ (l : List Nat) (fs : FS),
      (fanoutFollowers maxFeedSize author post score fs l).celebrity =
        fs.celebrity := by
  intro l
  induction l with
  | nil => intro fs; rfl
  | cons g rest ih =>
    intro fs
    rw [fanoutFollowers, ih, fanoutFollowerStep_celebrity]

theorem dbAddToFeed_dbFeed_mono (fs : FS) (u p : Nat) (r : Nat × Nat)
    (h : r ∈ fs.dbFeed) : r ∈ (dbAddToFeed fs u p).dbFeed := by
  rcases dbAddToFeed_dbFeed fs u p with he | he <;> rw [he]
  · exact h
  · exact List.mem_append_left _ h

theorem dbAddToFeed_mem_self (fs : FS) (u p : Nat) :
    (u, p) ∈ (dbAddToFeed fs u p).dbFeed := by
  unfold dbAddToFeed
  by_cases h : (fs.dbFeed.find? (fun r => decide (r.1 = u ∧ r.2 = p))).isSome
  · rw [if_pos h]
    rcases Option.isSome_iff_exists.mp h with ⟨r, hr⟩
    have hm := List.mem_of_find?_eq_some hr
    have he := List.find?_some hr
    simp only [decide_eq_true_eq] at he
    have hre : r = (u, p) := Prod.ext he.1 he.2
    rwa [hre] at hm
  · rw [if_neg h]
    simp

theorem fanoutFollowerStep_dbFeed_mono (maxFeedSize author post : Nat)
    (score : Int) (fs : FS) (f : Nat) (r : Nat × Nat) (h : r ∈ fs.dbFeed) :
    r ∈ (fanoutFollowerStep maxFeedSize author post score fs f).dbFeed := by
  unfold fanoutFollowerStep
  cases hrel : dbGetRelationshipType fs f author with
  | none =>
    rw [cacheAddPostToFeed_dbFeed]
    exact dbAddToFeed_dbFeed_mono fs f post r h
  | some ty =>
    cases ty
    case BLOCK => exact h
    all_goals
      rw [cacheAddPostToFeed_dbFeed]
      exact dbAddToFeed_dbFeed_mono fs f post r h

theorem fanoutFollowers_dbFeed_mono (maxFeedSize author post : Nat) (score : Int) :
    ∀ (l : List Nat) (fs : FS) (r : Nat × Nat), r ∈ fs.dbFeed →
      r ∈ (fanoutFollowers maxFeedSize author post score fs l).dbFeed := by
  intro l
  induction l with
  | nil => intro fs r h; exact h
  | cons g rest ih =>
    intro fs r h
    rw [fanoutFollowers]
    exact ih _ r (fanoutFollowerStep_dbFeed_mono maxFeedSize author post score fs g r h)

theorem fanoutFollowers_dbFeed_mem (maxFeedSize author post : Nat) (score : Int) :
    ∀ (l : List Nat) (fs : FS) (f : Nat), f ∈ l →
      dbGetRelationshipType fs f author ≠ some RelTy.BLOCK →
      (f, post) ∈ (fanoutFollowers maxFeedSize author post score fs l).dbFeed := by
  intro l
  induction l with
  | nil => intro fs f hf; exact absurd hf (List.not_mem_nil f)
  | cons g rest ih =>
    intro fs f hf hb
    rw [fanoutFollowers]
    rcases List.mem_cons.mp hf with rfl | hf2
    · have hmem : (f, post) ∈ (fanoutFollowerStep maxFeedSize author post score fs f).dbFeed := by
        unfold fanoutFollowerStep
        cases hrel : dbGetRelationshipType fs f author with
        | none =>
          rw [cacheAddPostToFeed_dbFeed]
          exact dbAddToFeed_mem_self fs f post
        | some ty =>
          cases ty
          case BLOCK => exact absurd hrel hb
          all_goals
            rw [cacheAddPostToFeed_dbFeed]
            exact dbAddToFeed_mem_self fs f post
      exact fanoutFollowers_dbFeed_mono maxFeedSize author post score rest _ _ hmem
    · apply ih _ f hf2
      rwa [dbGetRelationshipType_congr _ fs
        (fanoutFollowerStep_relationships maxFeedSize author post score fs g) f author]

theorem mem_setInsert_self {κ : Type} [DecidableEq κ] (l : List κ) (k : κ) :
    k ∈ setInsert l k := by
  unfold setInsert
  by_cases h : k ∈ l
  · rwa [if_pos h]
  · rw [if_neg h]; simp

theorem executeFanout_queue (threshold maxFeedSize : Nat) (fs : FS)
    (author post : Nat) (score : Int) :
    (executeFanout threshold maxFeedSize fs author post score).queue = fs.queue := by
  unfold executeFanout
  dsimp only
  split
  · rfl
  · rw [fanoutFollowers_queue]
    rfl

theorem executeFanout_dbFeed_mono (threshold maxFeedSize : Nat) (fs : FS)
    (author post : Nat) (score : Int) (r : Nat × Nat) (h : r ∈ fs.dbFeed) :
    r ∈ (executeFanout threshold maxFeedSize fs author post score).dbFeed := by
  unfold executeFanout
  dsimp only
  split
  · exact h
  · exact fanoutFollowers_dbFeed_mono maxFeedSize author post score _ _ r h

theorem executeFanout_celebrity_of_celeb (threshold maxFeedSize : Nat) (fs : FS)
    (author post : Nat) (score : Int)
    (h : threshold < dbGetFollowerCount fs author) :
    author ∈ (executeFanout threshold maxFeedSize fs author post score).celebrity := by
  unfold executeFanout
  dsimp only
  split
  case isTrue => exact mem_setInsert_self _ author
  case isFalse hf => exact absurd h (by simpa using hf)

theorem executeFanout_eager_writes (threshold maxFeedSize : Nat) (fs : FS)
    (author post : Nat) (score : Int)
    (h : dbGetFollowerCount fs author ≤ threshold) (f : Nat)
    (hf : f ∈ dbGetFollowers fs author)
    (hb : dbGetRelationshipType fs f author ≠ some RelTy.BLOCK) :
    (f, post) ∈ (executeFanout threshold maxFeedSize fs author post score).dbFeed := by
  unfold executeFanout
  dsimp only
  split
  case isTrue hc => exact absurd (by simpa using hc) (Nat.not_lt.mpr h)
  case isFalse => exact fanoutFollowers_dbFeed_mem maxFeedSize author post score _ _ f hf hb

/-- C5 counterexample: a non-celebrity author 0 with a single follower 1;
directly after `fanout_post` returns, follower 1's cached FeedIndex already
contains the post with its score, and the persisted feed row exists too —
the full fanout (follower traversal and follower-feed writes) ran
synchronously on the publisher's call path, not only in the worker loop. -/
theorem fanoutPost_synchronous_follower_write :
    alGet ((alGet (fanoutPost 5000 1000
      { emptyFS with users := [0, 1], relationships := [⟨1, 0, RelTy.FOLLOW⟩] }
      0 7 3).cacheFeeds 1).getD []) 7 = some 3 ∧
    (1, 7) ∈ (fanoutPost 5000 1000
      { emptyFS with users := [0, 1], relationships := [⟨1, 0, RelTy.FOLLOW⟩] }
      0 7 3).dbFeed := by
  decide

/-- C5 (amended): `fanout_post` places the (authorId, postId, createdAt)
tuple on the queue and then synchronously executes the entire fanout on the
caller's path: for a non-celebrity author every non-blocked follower's
persisted FeedIndex is written before `fanout_post` returns, and a
celebrity author is marked as celebrity before it returns. -/
theorem fanoutPost_enqueues_and_executes (threshold maxFeedSize : Nat) (fs : FS)
    (author post : Nat) (score : Int) :
    (fanoutPost threshold maxFeedSize fs author post score).queue =
      fs.queue ++ [(author, post, score)] ∧
    (dbGetFollowerCount fs author ≤ threshold →
      ∀ f ∈ dbGetFollowers fs author,
        dbGetRelationshipType fs f author ≠ some RelTy.BLOCK →
        (f, post) ∈ (fanoutPost threshold maxFeedSize fs author post score).dbFeed) ∧
    (threshold < dbGetFollowerCount fs author →
      author ∈ (fanoutPost threshold maxFeedSize fs author post score).celebrity) := by
  refine ⟨?_, ?_, ?_⟩
  · unfold fanoutPost
    rw [executeFanout_queue]
  · intro hle f hf hb
    unfold fanoutPost
    exact executeFanout_eager_writes threshold maxFeedSize
      { fs with queue := fs.queue ++ [(author, post, score)] } author post score hle f hf hb
  · intro hlt
    unfold fanoutPost
    exact executeFanout_celebrity_of_celeb threshold maxFeedSize
      { fs with queue := fs.queue ++ [(author, post, score)] } author post score hlt

/-- Witness for `fanoutPost_enqueues_and_executes` at the non-celebrity
one-follower scenario. -/
theorem fanoutPost_enqueues_and_executes_witness :
    (fanoutPost 5000 1000
      { emptyFS with users := [0, 1], relationships := [⟨1, 0, RelTy.FOLLOW⟩] }
      0 7 3).queue =
      ({ emptyFS with users := [0, 1], relationships := [⟨1, 0, RelTy.FOLLOW⟩] } :
        FS).queue ++ [(0, 7, 3)] ∧
    (1, 7) ∈ (fanoutPost 5000 1000
      { emptyFS with users := [0, 1], relationships := [⟨1, 0, RelTy.FOLLOW⟩] }
      0 7 3).dbFeed := by
  have h := fanoutPost_enqueues_and_executes 5000 1000
    { emptyFS with users := [0, 1], relationships := [⟨1, 0, RelTy.FOLLOW⟩] } 0 7 3
  exact ⟨h.1, h.2.1 (by decide) 1 (by decide) (by decide)⟩

/-! ## Celebrity publish (C4) -/

/-- C4 counterexample: `celebrity_threshold = 1`; author 0 has two
followers (1 and 2), so the fanout executor marks author 0 as a celebrity —
yet publishing eagerly appended the post id into follower 1's cached
FeedIndex and persisted feed row, because `publish_post` runs its own
follower loop before the fanout strategy is ever consulted.  This refutes
"performs no eager appends of the post id into any follower's FeedIndex;
only the author's own feed receives the entry at publish time". -/
theorem publishPost_celebrity_eager_append :
    let fsC : FS :=
      { emptyFS with
        users := [0, 1, 2]
        relationships := [⟨1, 0, RelTy.FOLLOW⟩, ⟨2, 0, RelTy.FOLLOW⟩] }
    1 < dbGetFollowerCount fsC 0 ∧
    (publishPost 1 1000 fsC 0 42 5).celebrity = [0] ∧
    alGet ((alGet (publishPost 1 1000 fsC 0 42 5).cacheFeeds 1).getD []) 42 =
      some 5 ∧
    (1, 42) ∈ (publishPost 1 1000 fsC 0 42 5).dbFeed := by
  decide

/-- C4 (amended): when the author's follower count exceeds
`celebrity_threshold`, publishing does mark the author as celebrity, but
`publish_post` itself eagerly appends the post id into every non-blocked
follower's persisted FeedIndex before invoking the fanout service — the
followers' feed indexes therefore do contain the post id. -/
theorem publishPost_celebrity_still_eager (threshold maxFeedSize : Nat) (fs : FS)
    (author pid : Nat) (score : Int)
    (hceleb : threshold < dbGetFollowerCount fs author) :
    author ∈ (publishPost threshold maxFeedSize fs author pid score).celebrity ∧
    ∀ f ∈ dbGetFollowers fs author,
      dbGetRelationshipType fs f author ≠ some RelTy.BLOCK →
      (f, pid) ∈ (publishPost threshold maxFeedSize fs author pid score).dbFeed := by
  set F2 : FS := cacheSetPost (dbCreatePost fs author pid score) pid with hF2
  set F4 : FS := cacheAddPostToFeed maxFeedSize (dbAddToFeed F2 author pid)
    author pid score with hF4
  set F5 : FS := fanoutFollowers maxFeedSize author pid score F4
    (dbGetFollowers F4 author) with hF5
  have hrel4 : F4.relationships = fs.relationships := by
    calc F4.relationships = (dbAddToFeed F2 author pid).relationships := rfl
    _ = F2.relationships := dbAddToFeed_relationships F2 author pid
    _ = fs.relationships := rfl
  have hrel5 : F5.relationships = fs.relationships := by
    calc F5.relationships = F4.relationships :=
      fanoutFollowers_relationships maxFeedSize author pid score _ F4
    _ = fs.relationships := hrel4
  have hpub : publishPost threshold maxFeedSize fs author pid score =
      fanoutPost threshold maxFeedSize F5 author pid score := rfl
  have hcount5 : dbGetFollowerCount F5 author = dbGetFollowerCount fs author := by
    unfold dbGetFollowerCount
    rw [dbGetFollowers_congr F5 fs hrel5]
  rw [hpub]
  constructor
  · unfold fanoutPost
    apply executeFanout_celebrity_of_celeb
    show threshold < dbGetFollowerCount F5 author
    rw [hcount5]
    exact hceleb
  · intro f hf hb
    unfold fanoutPost
    apply executeFanout_dbFeed_mono
    show (f, pid) ∈ F5.dbFeed
    rw [hF5]
    apply fanoutFollowers_dbFeed_mem
    · rw [dbGetFollowers_congr F4 fs hrel4]
      exact hf
    · rw [dbGetRelationshipType_congr F4 fs hrel4]
      exact hb

/-- Witness for `publishPost_celebrity_still_eager` at the two-follower,
threshold-1 scenario, specialized to follower 1. -/
theorem publishPost_celebrity_still_eager_witness :
    0 ∈ (publishPost 1 1000
      { emptyFS with
        users := [0, 1, 2]
        relationships := [⟨1, 0, RelTy.FOLLOW⟩, ⟨2, 0, RelTy.FOLLOW⟩] }
      0 42 5).celebrity ∧
    (1, 42) ∈ (publishPost 1 1000
      { emptyFS with
        users := [0, 1, 2]
        relationships := [⟨1, 0, RelTy.FOLLOW⟩, ⟨2, 0, RelTy.FOLLOW⟩] }
      0 42 5).dbFeed := by
  have h := publishPost_celebrity_still_eager 1 1000
    { emptyFS with
      users := [0, 1, 2]
      relationships := [⟨1, 0, RelTy.FOLLOW⟩, ⟨2, 0, RelTy.FOLLOW⟩] }
    0 42 5 (by decide)
  exact ⟨h.1, h.2 1 (by decide) (by decide)⟩

/-! ## Gossip: known-failed peers (C9) -/

theorem alGet_eq_none_iff {κ β : Type} [DecidableEq κ] (l : List (κ × β)) (k : κ) :
    alGet l k = none ↔ ∀ p ∈ l, p.1 ≠ k := by
  induction l with
  | nil => simp [alGet]
  | cons p rest ih =>
    by_cases h : p.1 = k <;> simp [alGet, h, ih]

theorem alGet_alRemove_none {κ β : Type} [DecidableEq κ] (l : List (κ × β))
    (k k2 : κ) (h : alGet l k2 = none) : alGet (alRemove l k) k2 = none := by
  rw [alGet_eq_none_iff] at h ⊢
  intro p hp
  exact h p (List.mem_of_mem_filter hp)

theorem not_mem_setInsert {κ : Type} [DecidableEq κ] (l : List κ) (k k2 : κ)
    (h : k2 ∉ l) (hne : k2 ≠ k) : k2 ∉ setInsert l k := by
  unfold setInsert
  by_cases hin : k ∈ l
  · rwa [if_pos hin]
  · rw [if_neg hin]
    intro hm
    rcases List.mem_append.mp hm with hm | hm
    · exact h hm
    · exact hne (by simpa using hm)

theorem mem_setInsert_of_mem {κ : Type} [DecidableEq κ] (l : List κ) (k k2 : κ)
    (h : k2 ∈ l) : k2 ∈ setInsert l k := by
  unfold setInsert
  by_cases hin : k ∈ l
  · rwa [if_pos hin]
  · rw [if_neg hin]
    exact List.mem_append_left _ h

theorem gossipRemoveFailed_keeps_out (id : String) :
    ∀ (l : List String) (st : NodeState),
      alGet st.membership id = none → id ∉ st.ring → id ∈ st.knownFailed →
      alGet (gossipRemoveFailed st l).membership id = none ∧
      id ∉ (gossipRemoveFailed st l).ring ∧
      id ∈ (gossipRemoveFailed st l).knownFailed := by
  intro l
  induction l with
  | nil => intro st h1 h2 h3; exact ⟨h1, h2, h3⟩
  | cons fnode rest ih =>
    intro st h1 h2 h3
    rw [gossipRemoveFailed]
    by_cases hcond : (alGet st.membership fnode).isSome = true ∧ fnode ≠ st.selfId
    · rw [if_pos hcond]
      exact ih _ (alGet_alRemove_none st.membership fnode id h1)
        (fun hm => h2 (List.mem_of_mem_filter hm))
        (mem_setInsert_of_mem st.knownFailed fnode id h3)
    · rw [if_neg hcond]
      exact ih st h1 h2 h3

theorem gossipUpdateSender_keeps_out (st : NodeState) (sender : String)
    (rm : List (String × MemberInfo)) (now : Int) (id : String)
    (h1 : alGet st.membership id = none) (h2 : id ∉ st.ring)
    (h3 : id ∈ st.knownFailed) (hne : id ≠ sender) :
    alGet (gossipUpdateSender st sender rm now).membership id = none ∧
    id ∉ (gossipUpdateSender st sender rm now).ring ∧
    id ∈ (gossipUpdateSender st sender rm now).knownFailed := by
  unfold gossipUpdateSender
  cases hs : alGet st.membership sender with
  | none =>
    dsimp only
    refine ⟨?_, ?_, h3⟩
    · exact (alGet_alSet_ne st.membership sender id _ (fun he => hne he.symm)).trans h1
    · exact not_mem_setInsert st.ring sender id h2 hne
  | some p =>
    rcases p with ⟨localHb, ts⟩
    dsimp only
    by_cases hhb : localHb < ((alGet rm sender).getD (0, 0)).1
    · rw [if_pos hhb]
      exact ⟨(alGet_alSet_ne st.membership sender id _
        (fun he => hne he.symm)).trans h1, h2, h3⟩
    · rw [if_neg hhb]
      exact ⟨h1, h2, h3⟩

theorem gossipMergeMembership_keeps_out (now : Int) (id : String) :
    ∀ (rm : List (String × MemberInfo)) (st : NodeState),
      alGet st.membership id = none → id ∉ st.ring → id ∈ st.knownFailed →
      alGet (gossipMergeMembership now st rm).membership id = none ∧
      id ∉ (gossipMergeMembership now st rm).ring ∧
      id ∈ (gossipMergeMembership now st rm).knownFailed := by
  intro rm
  induction rm with
  | nil => intro st h1 h2 h3; exact ⟨h1, h2, h3⟩
  | cons e rest ih =>
    rcases e with ⟨nid, hb, ts⟩
    intro st h1 h2 h3
    rw [gossipMergeMembership]
    by_cases hself : nid = st.selfId
    · rw [if_pos hself]
      exact ih st h1 h2 h3
    · rw [if_neg hself]
      by_cases hkf : nid ∈ st.knownFailed
      · rw [if_pos hkf]
        exact ih st h1 h2 h3
      · rw [if_neg hkf]
        have hnid : nid ≠ id := fun he => hkf (he ▸ h3)
        cases hm : alGet st.membership nid with
        | some q =>
          rcases q with ⟨localHb, ts2⟩
          dsimp only
          by_cases hhb : localHb < hb
          · rw [if_pos hhb]
            exact ih _ ((alGet_alSet_ne st.membership nid id _ hnid).trans h1) h2 h3
          · rw [if_neg hhb]
            exact ih st h1 h2 h3
        | none =>
          dsimp only
          exact ih _ ((alGet_alSet_ne st.membership nid id _ hnid).trans h1)
            (not_mem_setInsert st.ring nid id h2 (fun he => hnid he.symm)) h3

/-- C9 counterexample: node A learns from C that B failed — B is removed
from membership and ring and recorded in knownFailed.  A later
`receive_gossip` in which the failed peer B itself is the sender re-adds B
to A's membership and ring, with knownFailed still containing B and no
explicit join having happened: the sender-update path of `receive_gossip`
has no knownFailed check. -/
theorem receiveGossip_readmits_failed_sender :
    let st0 : NodeState :=
      ⟨"A", [("A", (0, 0)), ("B", (3, 0)), ("C", (1, 0))], ["A", "B", "C"], []⟩
    let g1 := receiveGossip st0 "C" [("C", (2, 0))] ["B"] 10 true
    let g2 := receiveGossip g1 "B" [("B", (9, 0))] [] 20 true
    "B" ∈ g1.knownFailed ∧ alGet g1.membership "B" = none ∧ "B" ∉ g1.ring ∧
    (alGet g2.membership "B").isSome = true ∧ "B" ∈ g2.ring ∧
    "B" ∈ g2.knownFailed := by
  decide

/-- C9 (amended): once a peer id is in a node's knownFailed set and has been
removed from its membership and ring, no `receive_gossip` from a DIFFERENT
sender re-adds it — the membership-merge loop skips known-failed ids, and
the id stays in knownFailed; however the sender-update path performs no
knownFailed check, so when the failed peer itself is the gossip sender it is
re-added to membership and ring (see the counterexample). -/
theorem receiveGossip_failed_nonsender_stays_out (st : NodeState)
    (senderId : String) (rm : List (String × MemberInfo)) (rf : List String)
    (now : Int) (id : String)
    (h1 : alGet st.membership id = none) (h2 : id ∉ st.ring)
    (h3 : id ∈ st.knownFailed) (hne : id ≠ senderId) :
    alGet (receiveGossip st senderId rm rf now true).membership id = none ∧
    id ∉ (receiveGossip st senderId rm rf now true).ring ∧
    id ∈ (receiveGossip st senderId rm rf now true).knownFailed := by
  unfold receiveGossip
  simp only [Bool.not_true, Bool.false_eq_true, if_false]
  obtain ⟨r1, r2, r3⟩ := gossipRemoveFailed_keeps_out id rf st h1 h2 h3
  obtain ⟨u1, u2, u3⟩ := gossipUpdateSender_keeps_out _ senderId rm now id r1 r2 r3 hne
  exact gossipMergeMembership_keeps_out now id rm _ u1 u2 u3

/-- Witness for `receiveGossip_failed_nonsender_stays_out`: node A with
known-failed B receives gossip from C; B stays out of membership and ring
and remains known-failed. -/
theorem receiveGossip_failed_nonsender_stays_out_witness :
    alGet (receiveGossip ⟨"A", [("A", (0, 0))], ["A"], ["B"]⟩ "C"
      [("C", (7, 2))] [] 30 true).membership "B" = none ∧
    "B" ∉ (receiveGossip ⟨"A", [("A", (0, 0))], ["A"], ["B"]⟩ "C"
      [("C", (7, 2))] [] 30 true).ring ∧
    "B" ∈ (receiveGossip ⟨"A", [("A", (0, 0))], ["A"], ["B"]⟩ "C"
      [("C", (7, 2))] [] 30 true).knownFailed :=
  receiveGossip_failed_nonsender_stays_out ⟨"A", [("A", (0, 0))], ["A"], ["B"]⟩
    "C" [("C", (7, 2))] [] 30 "B" (by decide) (by decide) (by decide) (by decide)

end PSD
